import Mathlib

/-!
Verification development for the slack-claude-bot repository.

The TypeScript sources are shallowly embedded here:
* JavaScript strings are modelled as Lean `String` (a list of unicode scalar
  values); `str.length`, `substring`, `split`, `trim`, `startsWith`, `indexOf`
  are modelled by executable functions over `String.data`.
* JavaScript truthiness of optional strings (`undefined`, `null`, `""` are
  falsy) is modelled by `jsTruthy` / `jsOr` / `jsOrS`.
* `JSON.parse` (an external platform builtin, not part of the repository) is a
  parameter `parse : String → Option StreamJsonRecord`, where
  `StreamJsonRecord` records exactly the fields the decoder in
  `src/services/claude-executor.ts` reads.
* The Slack Web API client, the Claude CLI subprocess and `parseFloat` /
  `Number.prototype.toString` (all external collaborators) are parameters
  (`SlackEnv`, `FloatModel`); thrown JS exceptions are modelled by
  `Except String`.
-/

/-! ## JavaScript string model -/

/-- The whitespace characters recognised by the JS `trim` / `\s` class
(restricted to the characters that can actually appear in Slack payloads). -/
def jsWsChar (c : Char) : Bool :=
  c = ' ' || c = '\t' || c = '\n' || c = '\r' ||
  c = Char.ofNat 11 || c = Char.ofNat 12 || c = Char.ofNat 160

/-- JS `String.prototype.trim` on a character list. -/
def jsTrimList (cs : List Char) : List Char :=
  ((cs.dropWhile jsWsChar).reverse.dropWhile jsWsChar).reverse

/-- JS `String.prototype.trim`. -/
def jsTrimStr (s : String) : String :=
  String.mk (jsTrimList s.data)

/-- JS `String.prototype.split` with a one-character separator:
`"".split(sep) = [""]`, and a trailing separator yields a trailing `""`. -/
def jsSplitChar (sep : Char) : List Char → List (List Char)
  | [] => [[]]
  | c :: rest =>
    let r := jsSplitChar sep rest
    if c = sep then [] :: r
    else
      match r with
      | [] => [[c]]
      | l :: ls => (c :: l) :: ls

/-- JS `String.prototype.startsWith`. -/
def jsStartsWith (s pre : String) : Bool :=
  pre.data.isPrefixOf s.data

/-- JS `str?.startsWith(pre)` on an optional receiver (`undefined` is falsy). -/
def jsStartsWithOpt (s : Option String) (pre : String) : Bool :=
  match s with
  | none => false
  | some s => jsStartsWith s pre

/-- JS truthiness of an optional string: `undefined` and `""` are falsy. -/
def jsTruthy (o : Option String) : Bool :=
  match o with
  | none => false
  | some s => if s = "" then false else true

/-- JS `x || d` for an optional string `x`. -/
def jsOr (o : Option String) (d : String) : String :=
  match o with
  | none => d
  | some s => if s = "" then d else s

/-- JS `x || d` for a (non-optional) string `x`. -/
def jsOrS (s d : String) : String :=
  if s = "" then d else s

/-- JS `String.prototype.length` (unicode scalar count in this model). -/
def jsLength (s : String) : Nat :=
  s.data.length

/-- JS `str.substring(0, n)`. -/
def strTake (s : String) (n : Nat) : String :=
  String.mk (s.data.take n)

/-- JS `str.substring(n)`. -/
def strDrop (s : String) (n : Nat) : String :=
  String.mk (s.data.drop n)

/-- JS `str.indexOf(c)`, `none` standing for `-1`. -/
def jsIndexOfChar (s : String) (c : Char) : Option Nat :=
  s.data.findIdx? (fun x => x = c)

/-- JS `Array.prototype.join(sep)`. -/
def joinWith (sep : String) : List String → String
  | [] => ""
  | [x] => x
  | x :: xs => x ++ sep ++ joinWith sep xs

/-! ## Execution Protocol Adapter — stream-json decoder
(`src/services/claude-executor.ts`) -/

/-- `FileOperation` from `claude-executor.ts`: an entry of `modifiedFiles`. -/
structure FileOperation where
  type : String
  filePath : String
deriving DecidableEq

/-- The `tool_use_result` sub-object of a decoded protocol line, restricted to
the two fields the decoder reads. -/
structure ToolUseResult where
  type : Option String
  filePath : Option String
deriving DecidableEq

/-- A JSON protocol line as observed by `parseStreamJsonOutput`: exactly the
fields the loop body of the decoder accesses (`tool_use_result`, `type`,
`result`, `session_id`); a missing field is `none`. -/
structure StreamJsonRecord where
  tool_use_result : Option ToolUseResult
  type : Option String
  result : Option String
  session_id : Option String
deriving DecidableEq

/-- The value returned by `parseStreamJsonOutput`. -/
structure StreamParseResult where
  result : String
  sessionId : Option String
  modifiedFiles : List FileOperation
deriving DecidableEq

/-- The loop body of `parseStreamJsonOutput` for one successfully parsed line:
push a file operation when `json.tool_use_result && json.tool_use_result.filePath`,
and overwrite `result` / `sessionId` when `json.type === 'result'`. -/
def processRecord (st : StreamParseResult) (json : StreamJsonRecord) : StreamParseResult :=
  let st :=
    match json.tool_use_result with
    | some tur =>
      if jsTruthy tur.filePath then
        { st with modifiedFiles :=
            st.modifiedFiles ++ [⟨jsOr tur.type "unknown", tur.filePath.getD ""⟩] }
      else st
    | none => st
  if json.type = some "result" then
    { st with result := jsOr json.result "", sessionId := json.session_id }
  else st

/-- `rawOutput.split('\n')` before the truthiness filter. -/
def jsRawLines (rawOutput : String) : List String :=
  (jsSplitChar '\n' rawOutput.data).map (fun cs => String.mk cs)

/-- `rawOutput.split('\n').filter(line => line.trim())`. -/
def jsLines (rawOutput : String) : List String :=
  (jsRawLines rawOutput).filter (fun l => jsTrimStr l ≠ "")

/-- `parseStreamJsonOutput` from `claude-executor.ts`, with `JSON.parse`
supplied as the parameter `parse` (a line on which `parse` returns `none`
is the `catch {}` branch: silently discarded). -/
def parseStreamJsonOutput (parse : String → Option StreamJsonRecord)
    (rawOutput : String) : StreamParseResult :=
  (jsLines rawOutput).foldl
    (fun st line =>
      match parse line with
      | some json => processRecord st json
      | none => st)
    ⟨"", none, []⟩

/-! ## Data model (`src/types/index.ts`) -/

/-- `SlackFile` from `types/index.ts`. -/
structure SlackFile where
  id : String
  name : Option String
  mimetype : Option String
  url_private : Option String
deriving DecidableEq

/-- `SlackMessage` from `types/index.ts`. -/
structure SlackMessage where
  ts : String
  channel : String
  user : Option String
  text : Option String
  files : Option (List SlackFile)
  thread_ts : Option String
deriving DecidableEq

/-- `ParsedCommand` from `types/index.ts`; `imageUrls = none` is JS
`undefined` and `imageUrls = some []` is an (anomalous) empty array. -/
structure ParsedCommand where
  projectName : String
  prompt : String
  imageUrls : Option (List String)
deriving DecidableEq

/-- `ThreadSession` from `types/index.ts`. -/
structure ThreadSession where
  projectName : String
  projectPath : String
  sessionId : Option String
deriving DecidableEq

/-- `ClaudeConfig` from `types/index.ts`. -/
structure ClaudeConfig where
  systemPrompt : Option String
deriving DecidableEq

/-- `AppConfig` from `types/index.ts`; the `projects` and `channels` records
are association lists keyed by project name / channel id. -/
structure AppConfig where
  projects : List (String × String)
  channels : Option (List (String × String))
  claude : Option ClaudeConfig

/-- JS object-property / `Map.get` lookup in an association list. -/
def mapGet {α : Type} (m : List (String × α)) (k : String) : Option α :=
  (m.find? (fun p => p.1 = k)).map (fun p => p.2)

/-- JS `Map.prototype.set`: replace in place when the key exists, append
otherwise (insertion order is preserved). -/
def mapSet {α : Type} (m : List (String × α)) (k : String) (v : α) : List (String × α) :=
  if m.any (fun p => p.1 = k) then
    m.map (fun p => if p.1 = k then (k, v) else p)
  else m ++ [(k, v)]

/-- JS `Set.prototype.add`. -/
def setAdd (s : List String) (x : String) : List String :=
  if s.contains x then s else s ++ [x]

/-! ## Command Parser (`src/services/command-parser.ts`) -/

/-- `extractImageUrls` from `command-parser.ts`: `undefined` when the message
has no files or no file with an `image/` mime type; otherwise the private
URLs of the image files that carry one (note: possibly the empty array). -/
def extractImageUrls (message : SlackMessage) : Option (List String) :=
  match message.files with
  | none => none
  | some files =>
    if files.length = 0 then none
    else
      let imageFiles := files.filter (fun f => jsStartsWithOpt f.mimetype "image/")
      if imageFiles.length = 0 then none
      else
        some ((imageFiles.filter (fun f => jsTruthy f.url_private)).map
          (fun f => f.url_private.getD ""))

/-- The regular expression `COMMAND_PATTERN` from `command-parser.ts`
(`^!claude\s+(\S+)\s+(.+)$` with the dot-all flag), matched against the
already-trimmed message text: the literal trigger, one or more whitespace
characters, a maximal non-whitespace project token, one or more whitespace
characters, and a non-empty remainder. -/
def matchCommandPattern (text : String) : Option (String × String) :=
  if jsStartsWith text "!claude" then
    let rest := text.data.drop 7
    let ws1 := rest.takeWhile jsWsChar
    let rest1 := rest.dropWhile jsWsChar
    if ws1.length = 0 then none
    else
      let tok := rest1.takeWhile (fun c => !jsWsChar c)
      let rest2 := rest1.dropWhile (fun c => !jsWsChar c)
      if tok.length = 0 then none
      else
        let ws2 := rest2.takeWhile jsWsChar
        let rest3 := rest2.dropWhile jsWsChar
        if ws2.length = 0 then none
        else if rest3.length = 0 then none
        else some (String.mk tok, String.mk rest3)
  else none

/-- `parseCommand` from `command-parser.ts`. -/
def parseCommand (message : SlackMessage) (defaultProject : Option String) :
    Option ParsedCommand :=
  match message.text with
  | none => none
  | some t0 =>
    let text := jsTrimStr t0
    if text = "" then none
    else
      match matchCommandPattern text with
      | some (projectName, rest) =>
        some ⟨projectName, jsTrimStr rest, extractImageUrls message⟩
      | none =>
        if jsTruthy defaultProject && jsStartsWith text "<@" then
          match jsIndexOfChar text '>' with
          | some mentionEnd =>
            let prompt := jsTrimStr (strDrop text (mentionEnd + 1))
            if prompt ≠ "" then
              some ⟨defaultProject.getD "", prompt, extractImageUrls message⟩
            else none
          | none => none
        else none

/-! ## Reply formatting (`src/index.ts`, the main entry point) -/

/-- `FILE_OPERATION_LABELS` from `index.ts` as a lookup function. -/
def FILE_OPERATION_LABELS (t : String) : Option String :=
  if t = "create" then some "作成"
  else if t = "edit" then some "編集"
  else if t = "delete" then some "削除"
  else if t = "unknown" then some "操作"
  else none

/-- `formatFileOperations` from `index.ts`: a bulleted list of labelled file
operations, paths rendered relative to the project root when prefixed by it. -/
def formatFileOperations (files : List FileOperation) (projectPath : String) : String :=
  if files.length = 0 then ""
  else
    let lines := files.map (fun file =>
      let label := jsOr (FILE_OPERATION_LABELS file.type) file.type
      let relativePath :=
        if jsStartsWith file.filePath projectPath then
          strDrop file.filePath (jsLength projectPath + 1)
        else file.filePath
      "• [" ++ label ++ "] " ++ relativePath)
    "\n\n*変更されたファイル:*\n" ++ joinWith "\n" lines

/-- `ClaudeExecuteResult` from `claude-executor.ts`. -/
structure ClaudeExecuteResult where
  success : Bool
  output : String
  error : Option String
  sessionId : Option String
  modifiedFiles : Option (List FileOperation)
deriving DecidableEq

/-- The response text built by `handleMessage` / `handleThreadReply` before
the final length check: base text (or error block), then the formatted
file-operation list. -/
def preTruncationText (result : ClaudeExecuteResult) (projectPath : String) : String :=
  let responseText := jsOrS result.output "（出力なし）"
  let responseText :=
    if !result.success && jsTruthy result.error then
      "エラー:\n" ++ result.error.getD "" ++ "\n\n出力:\n" ++ result.output
    else responseText
  match result.modifiedFiles with
  | some files =>
    if files.length > 0 then responseText ++ formatFileOperations files projectPath
    else responseText
  | none => responseText

/-- The truncation marker appended by both handlers. -/
def truncationMarker : String := "\n...(省略)"

/-- The full reply-formatting sequence of `handleMessage` /
`handleThreadReply` (`index.ts` lines 267–279 and 375–387): build the text,
append the file-operation list, then truncate to 3900 characters plus the
marker when over the threshold. -/
def formatResponse (result : ClaudeExecuteResult) (projectPath : String) : String :=
  let responseText := preTruncationText result projectPath
  if jsLength responseText > 3900 then
    strTake responseText 3900 ++ truncationMarker
  else responseText

/-! ## Polling coordinator (`src/index.ts`, class `SlackClaudeBot`) -/

/-- The character class `[A-Z0-9]` of the mention pattern `<@[A-Z0-9]+>`. -/
def mentionChar (c : Char) : Bool :=
  ('A' ≤ c && c ≤ 'Z') || ('0' ≤ c && c ≤ '9')

/-- JS `text.replace(/<@[A-Z0-9]+>/g, '')`: remove every non-overlapping,
leftmost match of the mention pattern; on a failed match at a `<` the scan
resumes one character later, as a regex engine does. The `fuel` argument
makes the recursion structural (kernel-reducible); it only decreases, so
any fuel at least the list length gives the untruncated scan. -/
def stripMentionsAux : Nat → List Char → List Char
  | _, [] => []
  | 0, cs => cs
  | fuel + 1, '<' :: '@' :: rest2 =>
    let run := rest2.takeWhile mentionChar
    match rest2.dropWhile mentionChar with
    | '>' :: rest3 =>
      if run.length > 0 then stripMentionsAux fuel rest3
      else '<' :: stripMentionsAux fuel ('@' :: rest2)
    | _ => '<' :: stripMentionsAux fuel ('@' :: rest2)
  | fuel + 1, c :: rest => c :: stripMentionsAux fuel rest

/-- See `stripMentionsAux`: the scan with enough fuel for the whole input. -/
def stripMentionsList (cs : List Char) : List Char :=
  stripMentionsAux cs.length cs

/-- `prompt.replace(/<@[A-Z0-9]+>/g, '')` on strings. -/
def stripMentionsStr (s : String) : String :=
  String.mk (stripMentionsList s.data)

/-- `ClaudeExecuteOptions` from `claude-executor.ts` (the fields the
coordinator supplies; `additionalAllowedTools` is never passed by `index.ts`
and is omitted). -/
structure ClaudeExecuteOptions where
  prompt : String
  cwd : String
  images : Option (List String)
  resumeSessionId : Option String
  systemPrompt : Option String
deriving DecidableEq

/-- The external collaborators of the coordinator: the Slack Web API client
(`slack-client.ts`, an I/O wrapper out of the specified core) and the Claude
CLI subprocess behind `executeClaudeCodeWithSession` (which catches all its
own errors and never throws). A `.error` value models a thrown JS exception. -/
structure SlackEnv where
  getChannelHistory : String → String → Except String (List SlackMessage)
  getThreadReplies : String → String → String → Except String (List SlackMessage)
  postMessage : String → String → Option String → Except String Unit
  downloadImage : SlackFile → Except String String
  executeClaude : ClaudeExecuteOptions → ClaudeExecuteResult

/-- The JS number semantics used for timestamps: `parseFloat` and
`Number.prototype.toString`, modelled over `ℚ`. -/
structure FloatModel where
  parseFloat : String → ℚ
  toString : ℚ → String

/-- `Math.max(...xs)` for a non-empty list (the code guards the empty case). -/
def maxList : List ℚ → ℚ
  | [] => 0
  | x :: xs => xs.foldl max x

/-- The mutable module-level state of `index.ts` (`processedMessages`,
`threadSessions`, `threadLastChecked`, `this.lastTimestamp`) together with
observation traces of the side effects performed: messages posted, Claude
invocations, history/reply fetches attempted, and `logger.error` events. -/
structure BotState where
  processedMessages : List String
  threadSessions : List (String × ThreadSession)
  threadLastChecked : List (String × String)
  lastTimestamp : String
  posts : List (String × String × Option String)
  execCalls : List ClaudeExecuteOptions
  historyFetches : List (String × String)
  replyFetches : List (String × String × String)
  errorLogs : List String
deriving DecidableEq

/-- The state at construction time: the watermark starts at the process start
timestamp (`(Date.now() / 1000).toString()`), every store empty. -/
def mkInitialState (startTs : String) : BotState :=
  ⟨[], [], [], startTs, [], [], [], [], []⟩

/-- `getSessionKey` from `index.ts`. -/
def getSessionKey (channelId threadTs : String) : String :=
  channelId ++ ":" ++ threadTs

/-- `slackClient.postMessage(...)` as used by the coordinator: on success the
post is recorded in the trace, a thrown error propagates with the state
unchanged. -/
def doPost (env : SlackEnv) (st : BotState) (channelId text : String)
    (threadTs : Option String) : BotState × Option String :=
  match env.postMessage channelId text threadTs with
  | Except.ok _ => ({ st with posts := st.posts ++ [(channelId, text, threadTs)] }, none)
  | Except.error e => (st, some e)

/-- One iteration of the image-download loop shared by `handleMessage` and
`handleThreadReply`: download an `image/` attachment, log and drop it when
the download throws. -/
def downloadImagesStep (env : SlackEnv) (acc : BotState × List String)
    (file : SlackFile) : BotState × List String :=
  if jsStartsWithOpt file.mimetype "image/" then
    match env.downloadImage file with
    | Except.ok path => (acc.1, acc.2 ++ [path])
    | Except.error e =>
      ({ acc.1 with errorLogs := acc.1.errorLogs ++ ["画像ダウンロードエラー: " ++ e] },
       acc.2)
  else acc

/-- The image-download loop shared by `handleMessage` and
`handleThreadReply`. Never throws itself. -/
def downloadImages (env : SlackEnv) (st : BotState) (files : Option (List SlackFile)) :
    BotState × List String :=
  match files with
  | none => (st, [])
  | some fs => fs.foldl (downloadImagesStep env) (st, [])

/-- `handleMessage` from `index.ts`: dedup check, bot-author check, command
parse, project resolution, acknowledgment, image download, Claude execution,
reply post, session creation. The second component is a thrown exception. -/
def handleMessage (env : SlackEnv) (cfg : AppConfig) (botUserId : Option String)
    (st : BotState) (message : SlackMessage) (channelId : String) :
    BotState × Option String :=
  if st.processedMessages.contains message.ts then (st, none)
  else if message.user = botUserId then
    ({ st with processedMessages := setAdd st.processedMessages message.ts }, none)
  else
    let defaultProject := mapGet (cfg.channels.getD []) channelId
    match parseCommand message defaultProject with
    | none => (st, none)
    | some command =>
      let st := { st with processedMessages := setAdd st.processedMessages message.ts }
      let projectPath? := mapGet cfg.projects command.projectName
      if !jsTruthy projectPath? then
        doPost env st channelId
          ("エラー: プロジェクト \"" ++ command.projectName ++ "\" が見つかりません")
          (some message.ts)
      else
        let projectPath := projectPath?.getD ""
        match doPost env st channelId "処理中..." (some message.ts) with
        | (st, some e) => (st, some e)
        | (st, none) =>
          let dl := downloadImages env st message.files
          let st := dl.1
          let imagePaths := dl.2
          let opts : ClaudeExecuteOptions :=
            { prompt := command.prompt
              cwd := projectPath
              images := if imagePaths.length > 0 then some imagePaths else none
              resumeSessionId := none
              systemPrompt := (cfg.claude.map ClaudeConfig.systemPrompt).join }
          let result := env.executeClaude opts
          let st := { st with execCalls := st.execCalls ++ [opts] }
          let responseText := formatResponse result projectPath
          match doPost env st channelId responseText (some message.ts) with
          | (st, some e) => (st, some e)
          | (st, none) =>
            let sessionKey := getSessionKey channelId message.ts
            ({ st with
                threadSessions := mapSet st.threadSessions sessionKey
                  ⟨command.projectName, projectPath, result.sessionId⟩
                threadLastChecked := mapSet st.threadLastChecked sessionKey message.ts },
             none)

/-- `handleThreadReply` from `index.ts`: dedup and bot-author checks, mention
stripping, acknowledgment, image download, Claude execution resuming the
session's id, reply post, and in-place session-id overwrite when the
execution returned one. The returned `ThreadSession` is the same mutable
object the reply loop of `pollActiveThreads` keeps using. -/
def handleThreadReply (env : SlackEnv) (cfg : AppConfig) (botUserId : Option String)
    (st : BotState) (message : SlackMessage) (channelId threadTs : String)
    (session : ThreadSession) : BotState × ThreadSession × Option String :=
  if st.processedMessages.contains message.ts then (st, session, none)
  else if message.user = botUserId then
    ({ st with processedMessages := setAdd st.processedMessages message.ts }, session, none)
  else
    let st := { st with processedMessages := setAdd st.processedMessages message.ts }
    let prompt := message.text.map jsTrimStr
    if !jsTruthy prompt then (st, session, none)
    else
      let cleanPrompt := jsTrimStr (stripMentionsStr (prompt.getD ""))
      if cleanPrompt = "" then (st, session, none)
      else
        match doPost env st channelId "処理中..." (some threadTs) with
        | (st, some e) => (st, session, some e)
        | (st, none) =>
          let dl := downloadImages env st message.files
          let st := dl.1
          let imagePaths := dl.2
          let opts : ClaudeExecuteOptions :=
            { prompt := cleanPrompt
              cwd := session.projectPath
              images := if imagePaths.length > 0 then some imagePaths else none
              resumeSessionId := session.sessionId
              systemPrompt := (cfg.claude.map ClaudeConfig.systemPrompt).join }
          let result := env.executeClaude opts
          let st := { st with execCalls := st.execCalls ++ [opts] }
          let responseText := formatResponse result session.projectPath
          match doPost env st channelId responseText (some threadTs) with
          | (st, some e) => (st, session, some e)
          | (st, none) =>
            if jsTruthy result.sessionId then
              let session := { session with sessionId := result.sessionId }
              let st := { st with threadSessions := mapSet st.threadSessions (getSessionKey channelId threadTs) session }
              (st, session, none)
            else (st, session, none)

/-- The reply loop inside the per-thread `try` of `pollActiveThreads`:
process each reply in order, skipping the thread-root message, threading the
(mutated-in-place) session object; a thrown exception stops the loop and is
reported to the surrounding `catch`. -/
def replyStep (env : SlackEnv) (cfg : AppConfig) (botUserId : Option String)
    (channelId threadTs : String) (acc : BotState × ThreadSession × Option String)
    (reply : SlackMessage) : BotState × ThreadSession × Option String :=
  match acc with
  | (st, sess, some e) => (st, sess, some e)
  | (st, sess, none) =>
    if reply.ts = threadTs then (st, sess, none)
    else handleThreadReply env cfg botUserId st reply channelId threadTs sess

/-- See the doc comment above `replyStep`: the reply loop itself. -/
def processReplies (env : SlackEnv) (cfg : AppConfig) (botUserId : Option String)
    (st : BotState) (channelId threadTs : String) (session : ThreadSession)
    (replies : List SlackMessage) : BotState × ThreadSession × Option String :=
  replies.foldl (replyStep env cfg botUserId channelId threadTs) (st, session, none)

/-- `pollActiveThreads` from `index.ts`: snapshot the active threads of the
channel from the session store, and for each one fetch the replies newer than
its watermark, advance the watermark to the maximum reply timestamp, and run
the reply loop — the whole per-thread body inside a `try` whose `catch` logs
and moves on to the next thread. Never throws. -/
def pollThreadStep (env : SlackEnv) (cfg : AppConfig) (botUserId : Option String)
    (fl : FloatModel) (channelId : String) (st : BotState)
    (tt : String × ThreadSession) : BotState :=
  let threadTs := tt.1
  let session := tt.2
  let sessionKey := getSessionKey channelId threadTs
  let lastChecked := (mapGet st.threadLastChecked sessionKey).getD threadTs
  let st := { st with replyFetches := st.replyFetches ++ [(channelId, threadTs, lastChecked)] }
  match env.getThreadReplies channelId threadTs lastChecked with
  | Except.error e =>
    { st with errorLogs := st.errorLogs ++ ["スレッドポーリングエラー: " ++ e] }
  | Except.ok replies =>
    let st :=
      if replies.length > 0 then
        let latest := fl.toString (maxList (replies.map (fun m => fl.parseFloat m.ts)))
        { st with threadLastChecked := mapSet st.threadLastChecked sessionKey latest }
      else st
    match processReplies env cfg botUserId st channelId threadTs session replies with
    | (st, _, some e) =>
      { st with errorLogs := st.errorLogs ++ ["スレッドポーリングエラー: " ++ e] }
    | (st, _, none) => st

/-- The active-thread snapshot of `pollActiveThreads`: the session-store
entries whose concatenated key starts with `channelId:`, paired with the
thread timestamp recovered by `key.split(':')[1]`. -/
def activeThreadsOf (st : BotState) (channelId : String) :
    List (String × ThreadSession) :=
  (st.threadSessions.filter (fun p => jsStartsWith p.1 (channelId ++ ":"))).map
    (fun p =>
      ((((jsSplitChar ':' p.1.data).map (fun cs => String.mk cs)).get? 1).getD "", p.2))

/-- See the doc comment above `pollThreadStep`: the per-channel loop over
active threads. -/
def pollActiveThreads (env : SlackEnv) (cfg : AppConfig) (botUserId : Option String)
    (fl : FloatModel) (st : BotState) (channelId : String) : BotState :=
  (activeThreadsOf st channelId).foldl (pollThreadStep env cfg botUserId fl channelId) st

/-- One iteration of the message loop of `pollChannel`: route the next
message unless an exception is already propagating. -/
def routeMessagesStep (env : SlackEnv) (cfg : AppConfig) (botUserId : Option String)
    (channelId : String) (acc : BotState × Option String) (m : SlackMessage) :
    BotState × Option String :=
  match acc with
  | (st, some e) => (st, some e)
  | (st, none) => handleMessage env cfg botUserId st m channelId

/-- `pollChannel` from `index.ts`: fetch the channel history since the shared
watermark `lastTimestamp`, route every returned message through
`handleMessage`, then advance the shared watermark to the maximum returned
timestamp. A thrown exception (fetch or handler) propagates to `poll`. -/
def pollChannel (env : SlackEnv) (cfg : AppConfig) (botUserId : Option String)
    (fl : FloatModel) (st : BotState) (channelId : String) : BotState × Option String :=
  let st := { st with historyFetches := st.historyFetches ++ [(channelId, st.lastTimestamp)] }
  match env.getChannelHistory channelId st.lastTimestamp with
  | Except.error e => (st, some e)
  | Except.ok messages =>
    match messages.foldl (routeMessagesStep env cfg botUserId channelId) (st, none) with
    | (st, some e) => (st, some e)
    | (st, none) =>
      if messages.length > 0 then
        ({ st with lastTimestamp :=
            fl.toString (maxList (messages.map (fun m => fl.parseFloat m.ts))) }, none)
      else (st, none)

/-- `poll` from `index.ts` — one tick: for each configured channel, poll the
channel and then its active threads; the single `try`/`catch` wraps the whole
loop, so the first exception aborts the remainder of the tick and is logged. -/
def tickStep (env : SlackEnv) (cfg : AppConfig) (botUserId : Option String)
    (fl : FloatModel) (acc : BotState × Option String) (c : String) :
    BotState × Option String :=
  match acc with
  | (st, some e) => (st, some e)
  | (st, none) =>
    match pollChannel env cfg botUserId fl st c with
    | (st, some e) => (st, some e)
    | (st, none) => (pollActiveThreads env cfg botUserId fl st c, none)

/-- See the doc comment above `tickStep`: one full tick of `poll`. -/
def poll (env : SlackEnv) (cfg : AppConfig) (botUserId : Option String)
    (fl : FloatModel) (st : BotState) : BotState :=
  let channelIds := (cfg.channels.getD []).map Prod.fst
  match channelIds.foldl (tickStep env cfg botUserId fl) (st, none) with
  | (st, some e) => { st with errorLogs := st.errorLogs ++ ["ポーリングエラー: " ++ e] }
  | (st, none) => st

/-! ## Tick scheduling (`startPolling`, `index.ts` lines 103–108)

`startPolling` runs `setInterval(() => this.poll(), interval)`. The timer
callback does not await the promise of the previous `poll()`: when the
interval elapses while a tick is suspended at one of its `await` points, the
event loop starts the next tick and interleaves the atomic segments
(the code between `await`s) of the two ticks. The admissible schedules of
two overlapping ticks are therefore exactly the order-preserving
interleavings of their segment sequences. -/

/-- One atomic segment of a tick of `poll` (single-channel configuration):
the history fetch reading the shared `lastTimestamp`, the watermark
advancement writing it, and the active-thread pass, separated by `await`s. -/
inductive TickStep where
  | fetchChannel (tick : Nat)
  | advanceWatermark (tick : Nat)
  | pollThreads (tick : Nat)
deriving DecidableEq

/-- The segment sequence of one tick of `poll` for a one-channel
configuration, in program order. -/
def pollSegments (tick : Nat) : List TickStep :=
  [TickStep.fetchChannel tick, TickStep.advanceWatermark tick, TickStep.pollThreads tick]

/-- `trace` is an order-preserving interleaving of `xs` and `ys`. -/
def isInterleaving {α : Type} [DecidableEq α] : List α → List α → List α → Bool
  | [], ys, zs => decide (ys = zs)
  | x :: xs, [], zs => decide (x :: xs = zs)
  | _ :: _, _ :: _, [] => false
  | x :: xs, y :: ys, z :: zs =>
    (decide (z = x) && isInterleaving xs (y :: ys) zs) ||
    (decide (z = y) && isInterleaving (x :: xs) ys zs)

/-- The schedules admitted by `setInterval(() => this.poll(), interval)` for
two ticks whose lifetimes overlap: any interleaving of their segments. -/
def setIntervalAdmits (t1 t2 trace : List TickStep) : Prop :=
  isInterleaving t1 t2 trace = true

/-- A schedule is serialized when one tick runs to completion before the
other starts. -/
def serializedSchedule (t1 t2 trace : List TickStep) : Bool :=
  decide (trace = t1 ++ t2) || decide (trace = t2 ++ t1)

/-! ## Concrete test fixtures used by witnesses and counterexamples -/

/-- A concrete `JSON.parse` model for the last-write-wins witness: two valid
protocol lines, each a `"result"` record. -/
def c2parse : String → Option StreamJsonRecord := fun s =>
  if s = "lineA" then some ⟨none, some "result", some "first", some "sessA"⟩
  else if s = "lineB" then some ⟨none, some "result", some "second", some "sessB"⟩
  else none

/-- A concrete `JSON.parse` model for the malformed-line witness: `lineA` is
a tool-result line, `lineB` a `"result"` line, everything else (in
particular the literal text `not json`) fails to parse. -/
def c3parse : String → Option StreamJsonRecord := fun s =>
  if s = "lineA" then some ⟨some ⟨some "create", some "/srv/demo/a.ts"⟩, none, none, none⟩
  else if s = "lineB" then some ⟨none, some "result", some "done", some "sessB"⟩
  else none

/-- A concrete `JSON.parse` model for the mutation-kind counterexample: one
tool-result line whose declared type is the unrecognized string `rename`. -/
def c8parse : String → Option StreamJsonRecord := fun s =>
  if s = "toolLine" then some ⟨some ⟨some "rename", some "/srv/demo/a.ts"⟩, none, none, none⟩
  else none

/-- The message of the end-to-end scenario: `!claude demo fix the bug`. -/
def c9message : SlackMessage :=
  ⟨"100.1", "C1", some "U1", some "!claude demo fix the bug", none, none⟩

/-- A successful execution result with one file-create mutation under the
project root `/srv/demo`. -/
def c9result : ClaudeExecuteResult :=
  ⟨true, "done", none, some "sess-1", some [⟨"create", "/srv/demo/a.ts"⟩]⟩

/-- A message carrying one attachment with an `image/` mime type but no
private URL. -/
def c7message : SlackMessage :=
  ⟨"100.1", "C1", some "U1", some "!claude demo do it",
    some [⟨"F1", some "shot.png", some "image/png", none⟩], none⟩

/-- A message with three attachments: an image with a private URL, an image
without one, and a non-image with one. -/
def c7bMessage : SlackMessage :=
  ⟨"1.0", "C1", some "U1", some "x",
    some [⟨"F1", none, some "image/png", some "https://a"⟩,
          ⟨"F2", none, some "image/jpeg", none⟩,
          ⟨"F3", none, some "text/plain", some "https://b"⟩], none⟩

/-- A degenerate JS-number model for runs that never advance a watermark. -/
def flId : FloatModel := ⟨fun _ => 0, fun _ => "0"⟩

/-- Environment for the fetch-error counterexample: the history fetch of
channel `A` throws, everything else succeeds trivially. -/
def env5 : SlackEnv :=
  { getChannelHistory := fun c _ => if c = "A" then Except.error "boom" else Except.ok []
    getThreadReplies := fun _ _ _ => Except.ok []
    postMessage := fun _ _ _ => Except.ok ()
    downloadImage := fun _ => Except.error "no"
    executeClaude := fun _ => ⟨true, "", none, none, none⟩ }

/-- Two configured channels `A` and `B`, one project. -/
def cfg5 : AppConfig := ⟨[("demo", "/srv/demo")], some [("A", "demo"), ("B", "demo")], none⟩

/-- The cleaned prompt `handleThreadReply` computes from a reply text:
`text.trim()`, mention stripping, and a final `trim()`. -/
def cleanPromptOf (t : String) : String :=
  jsTrimStr (stripMentionsStr (jsTrimStr t))

/-- The options `handleThreadReply` passes to the Claude execution for a
reply without attachments: the cleaned prompt, the session's project path,
and the session's current id as the resume target. -/
def threadExecOptions (cfg : AppConfig) (session : ThreadSession)
    (cleanPrompt : String) : ClaudeExecuteOptions :=
  ⟨cleanPrompt, session.projectPath, none, session.sessionId,
    (cfg.claude.map ClaudeConfig.systemPrompt).join⟩

/-- The session object after `handleThreadReply` finishes one reply: the id
is overwritten in place when the execution returned a truthy one, otherwise
the record is untouched. -/
def sessionAfterExec (env : SlackEnv) (cfg : AppConfig) (session : ThreadSession)
    (cleanPrompt : String) : ThreadSession :=
  let result := env.executeClaude (threadExecOptions cfg session cleanPrompt)
  if jsTruthy result.sessionId then { session with sessionId := result.sessionId }
  else session

/-- Session fixture for the continuity witness: created with id `sess-0`. -/
def sess6 : ThreadSession := ⟨"demo", "/srv/demo", some "sess-0"⟩

/-- Environment for the continuity witness: resuming `sess-0` returns the new
id `sess-1`; any other resume target returns `sess-2`. -/
def env6 : SlackEnv :=
  { getChannelHistory := fun _ _ => Except.ok []
    getThreadReplies := fun _ _ _ => Except.ok []
    postMessage := fun _ _ _ => Except.ok ()
    downloadImage := fun _ => Except.error "x"
    executeClaude := fun o =>
      if o.resumeSessionId = some "sess-0" then ⟨true, "r1", none, some "sess-1", none⟩
      else ⟨true, "r2", none, some "sess-2", none⟩ }

/-- First thread reply of the continuity witness. -/
def r6a : SlackMessage := ⟨"51.1", "C1", some "U1", some "first reply", none, some "50.0"⟩

/-- Second thread reply of the continuity witness. -/
def r6b : SlackMessage := ⟨"52.2", "C1", some "U1", some "second reply", none, some "50.0"⟩

/-- One configured channel for the continuity witness. -/
def cfg6 : AppConfig := ⟨[("demo", "/srv/demo")], some [("C1", "demo")], none⟩

/-- The single message of the shared-watermark witness, in channel `A` with
timestamp `102`. -/
def msg101 : SlackMessage := ⟨"102", "A", some "U9", none, none, none⟩

/-- JS-number model for the shared-watermark witness: `parseFloat` and
`toString` agree on the two timestamps in play. -/
def fl10 : FloatModel :=
  ⟨fun s => if s = "100" then 100 else if s = "102" then 102 else 0,
   fun q => if q = 102 then "102" else "0"⟩

/-- A state with two active threads `11.1` and `22.2` in channel `C1` and
start watermark `100`, for the fetch-error-isolation scenario. -/
def st5 (s1 s2 : ThreadSession) : BotState :=
  { mkInitialState "100" with threadSessions := [("C1:11.1", s1), ("C1:22.2", s2)] }

/-- A session record for the fetch-error-isolation witness. -/
def sess5 : ThreadSession := ⟨"demo", "/srv/demo", none⟩

/-- Environment for the fetch-error-isolation witness: the reply fetch of
thread `11.1` throws, the history fetch of channel `C2` throws, everything
else returns nothing. -/
def env5b : SlackEnv :=
  { getChannelHistory := fun c _ => if c = "C2" then Except.error "boom2" else Except.ok []
    getThreadReplies := fun _ t _ => if t = "11.1" then Except.error "boom1" else Except.ok []
    postMessage := fun _ _ _ => Except.ok ()
    downloadImage := fun _ => Except.error "x"
    executeClaude := fun _ => ⟨true, "", none, none, none⟩ }

/-- Two configured channels for the fetch-error-isolation witness. -/
def cfg5b : AppConfig := ⟨[("demo", "/srv/demo")], some [("C1", "demo"), ("C2", "demo")], none⟩

/-- Environment for the shared-watermark witness: channel `A` polled at
watermark `100` returns `msg101`; every other fetch returns nothing. -/
def env10 : SlackEnv :=
  { getChannelHistory := fun c o =>
      if c = "A" ∧ o = "100" then Except.ok [msg101] else Except.ok []
    getThreadReplies := fun _ _ _ => Except.ok []
    postMessage := fun _ _ _ => Except.ok ()
    downloadImage := fun _ => Except.error "x"
    executeClaude := fun _ => ⟨true, "", none, none, none⟩ }

/-- Two configured channels `A` and `B` for the shared-watermark witness. -/
def cfg10 : AppConfig := ⟨[("demo", "/srv/demo")], some [("A", "demo"), ("B", "demo")], none⟩

/-! ## Helper lemmas -/

theorem jsLength_append (a b : String) : jsLength (a ++ b) = jsLength a + jsLength b := by
  simp [jsLength, String.data_append]

theorem jsLength_strTake (s : String) (n : Nat) :
    jsLength (strTake s n) = min n (jsLength s) := by
  simp [jsLength, strTake]

/-! ## Claim C1 -/

/-- Claim C1 (refuted; the code is at fault): `startPolling` installs
`setInterval(() => this.poll(), interval)` without tracking or awaiting the
returned promise, so when the interval elapses while a tick is suspended at
an `await`, the event loop is free to run the next tick's segments
interleaved with the running one's. Witnessed schedule: tick 2 performs its
history fetch (reading the shared `lastTimestamp`) between tick 1's fetch
and tick 1's watermark write — an admissible, non-serialized interleaving of
the two ticks' state mutations. -/
theorem setInterval_tick_overlap :
    setIntervalAdmits (pollSegments 1) (pollSegments 2)
      [TickStep.fetchChannel 1, TickStep.fetchChannel 2, TickStep.advanceWatermark 1,
       TickStep.advanceWatermark 2, TickStep.pollThreads 1, TickStep.pollThreads 2] ∧
    serializedSchedule (pollSegments 1) (pollSegments 2)
      [TickStep.fetchChannel 1, TickStep.fetchChannel 2, TickStep.advanceWatermark 1,
       TickStep.advanceWatermark 2, TickStep.pollThreads 1, TickStep.pollThreads 2] = false := by
  constructor
  · unfold setIntervalAdmits
    decide
  · decide

/-! ## Claim C4 -/

/-- Claim C4 (confirmed): the reply text posted by `handleMessage` and
`handleThreadReply` is `formatResponse result projectPath`. Its length never
exceeds the effective budget of 3908 characters (3900-character threshold
plus the 8-character marker, safely below Slack's 4000 limit); the
truncation marker is appended exactly when the pre-truncation text exceeded
the 3900 threshold; and truncation is applied to `preTruncationText`, which
already ends with the formatted file-mutation list, so the appended marker
is never itself cut. -/
theorem formatResponse_truncation_contract (result : ClaudeExecuteResult)
    (projectPath : String) :
    jsLength (formatResponse result projectPath) ≤ 3908 ∧
    formatResponse result projectPath =
      (if jsLength (preTruncationText result projectPath) > 3900 then
        strTake (preTruncationText result projectPath) 3900 ++ truncationMarker
      else preTruncationText result projectPath) ∧
    (jsLength (preTruncationText result projectPath) > 3900 ↔
      formatResponse result projectPath =
        strTake (preTruncationText result projectPath) 3900 ++ truncationMarker) := by
  have hdef : formatResponse result projectPath =
      (if jsLength (preTruncationText result projectPath) > 3900 then
        strTake (preTruncationText result projectPath) 3900 ++ truncationMarker
      else preTruncationText result projectPath) := rfl
  have hmarker : jsLength truncationMarker = 8 := by decide
  refine ⟨?_, hdef, ?_⟩
  · rw [hdef]
    by_cases h : jsLength (preTruncationText result projectPath) > 3900
    · rw [if_pos h, jsLength_append, jsLength_strTake, hmarker]
      omega
    · rw [if_neg h]
      omega
  · constructor
    · intro h
      rw [hdef, if_pos h]
    · intro h
      by_contra hc
      rw [hdef, if_neg hc] at h
      have hlen := congrArg jsLength h
      rw [jsLength_append, jsLength_strTake, hmarker] at hlen
      omega

/-! ## Claim C7 -/

/-- Claim C7 (counterexample): a message whose only attachment has an
`image/` mime type but no private URL makes `extractImageUrls` return the
empty list `some []`, not the absent value `none` — the empty-to-absent
normalization is decided before the private-URL filter runs. -/
theorem extractImageUrls_no_url_counterexample :
    extractImageUrls c7message = some [] := by decide

/-- Claim C7 (amended): whenever `extractImageUrls` returns a list, it is
exactly the private URLs of the attachments whose mime type begins with
`image/` and that carry a private URL; and the field is absent precisely
when the message has no attachments or none with an `image/` mime type — if
image-typed attachments exist but none carries a private URL, the result is
the (present) empty list. -/
theorem extractImageUrls_amended (m : SlackMessage) :
    (∀ urls, extractImageUrls m = some urls →
      urls = ((m.files.getD []).filter
          (fun f => jsStartsWithOpt f.mimetype "image/" && jsTruthy f.url_private)).map
        (fun f => f.url_private.getD "")) ∧
    (extractImageUrls m = none ↔
      (m.files.getD []).filter (fun f => jsStartsWithOpt f.mimetype "image/") = []) := by
  cases hf : m.files with
  | none =>
    simp [extractImageUrls, hf]
  | some files =>
    simp only [extractImageUrls, hf, Option.getD_some]
    by_cases h0 : files.length = 0
    · have : files = [] := List.length_eq_zero.mp h0
      subst this
      simp
    · rw [if_neg h0]
      by_cases h1 : (files.filter (fun f => jsStartsWithOpt f.mimetype "image/")).length = 0
      · rw [if_pos h1]
        have : files.filter (fun f => jsStartsWithOpt f.mimetype "image/") = [] :=
          List.length_eq_zero.mp h1
        simp [this]
      · rw [if_neg h1]
        constructor
        · intro urls hurls
          have := Option.some_injective _ hurls
          rw [← this, List.filter_filter]
          congr 1
          exact List.filter_congr (fun x _ => by rw [Bool.and_comm])
        · constructor
          · intro h
            exact absurd h (by simp)
          · intro h
            rw [h] at h1
            simp at h1

/-- Witness for the amended C7 theorem at a concrete message: one image
attachment with a private URL, one without, one non-image attachment. -/
theorem extractImageUrls_amended_witness :
    ((c7bMessage.files.getD []).filter
        (fun f => jsStartsWithOpt f.mimetype "image/" && jsTruthy f.url_private)).map
      (fun f => f.url_private.getD "") = ["https://a"] ∧
    extractImageUrls c7bMessage = some ["https://a"] := by
  have he : extractImageUrls c7bMessage = some ["https://a"] := by decide
  have h := (extractImageUrls_amended c7bMessage).1 ["https://a"] he
  exact ⟨h.symm, he⟩

/-! ## Claim C8 -/

/-- Claim C8 (counterexample): a protocol line whose tool-result object
declares the unrecognized type `rename` is recorded with kind `rename`
verbatim — the decoder does not normalize unrecognized kinds to `unknown`;
it only defaults when the declared type is missing (or empty). -/
theorem mutation_kind_passthrough_counterexample :
    (parseStreamJsonOutput c8parse "toolLine").modifiedFiles
      = [⟨"rename", "/srv/demo/a.ts"⟩] ∧
    (⟨"rename", "/srv/demo/a.ts"⟩ : FileOperation).type ≠ "unknown" := by decide

/-- Claim C8 (amended): for every decoded line carrying a tool-result object
with a truthy file path, the recorded mutation's kind defaults to `unknown`
exactly when the declared type is missing or the empty string; any other
declared type string — recognized or not — is passed through verbatim. -/
theorem mutation_kind_defaulting_amended (st : StreamParseResult)
    (j : StreamJsonRecord) (tur : ToolUseResult)
    (hj : j.tool_use_result = some tur) (hfp : jsTruthy tur.filePath = true) :
    ((tur.type = none ∨ tur.type = some "") →
      (processRecord st j).modifiedFiles
        = st.modifiedFiles ++ [⟨"unknown", tur.filePath.getD ""⟩]) ∧
    (∀ t, tur.type = some t → t ≠ "" →
      (processRecord st j).modifiedFiles
        = st.modifiedFiles ++ [⟨t, tur.filePath.getD ""⟩]) := by
  have hfiles : (processRecord st j).modifiedFiles
      = st.modifiedFiles ++ [⟨jsOr tur.type "unknown", tur.filePath.getD ""⟩] := by
    unfold processRecord
    rw [hj]
    simp only [hfp, if_true]
    split <;> rfl
  constructor
  · intro h
    rw [hfiles]
    rcases h with h | h <;> rw [h] <;> rfl
  · intro t ht hne
    rw [hfiles, ht]
    simp [jsOr, hne]

/-- Witness for the amended C8 theorem: a missing type yields `unknown`, the
unrecognized type `rename` is passed through. -/
theorem mutation_kind_defaulting_amended_witness :
    (processRecord ⟨"", none, []⟩ ⟨some ⟨none, some "/a"⟩, none, none, none⟩).modifiedFiles
      = [⟨"unknown", "/a"⟩] ∧
    (processRecord ⟨"", none, []⟩ ⟨some ⟨some "rename", some "/a"⟩, none, none, none⟩).modifiedFiles
      = [⟨"rename", "/a"⟩] := by
  constructor
  · have h := mutation_kind_defaulting_amended ⟨"", none, []⟩
      ⟨some ⟨none, some "/a"⟩, none, none, none⟩ ⟨none, some "/a"⟩ rfl (by decide)
    exact (h.1 (Or.inl rfl)).trans (by decide)
  · have h := mutation_kind_defaulting_amended ⟨"", none, []⟩
      ⟨some ⟨some "rename", some "/a"⟩, none, none, none⟩ ⟨some "rename", some "/a"⟩ rfl (by decide)
    exact (h.2 "rename" rfl (by decide)).trans (by decide)

/-! ## Claim C9 -/

/-- Claim C9 (confirmed): `!claude demo fix the bug` parses to project
`demo` with prompt `fix the bug`; a successful execution with one
file-create mutation on `/srv/demo/a.ts` formats the mutation with the
create label and the path rendered relative to the project root, and the
posted reply text carries that line. -/
theorem scenario_command_parse_and_mutation_format :
    parseCommand c9message none = some ⟨"demo", "fix the bug", none⟩ ∧
    formatFileOperations [⟨"create", "/srv/demo/a.ts"⟩] "/srv/demo"
      = "\n\n*変更されたファイル:*\n• [作成] a.ts" ∧
    formatResponse c9result "/srv/demo"
      = "done\n\n*変更されたファイル:*\n• [作成] a.ts" := by
  refine ⟨by decide, by decide, ?_⟩
  decide

/-! ## Claims C2 and C3 — decoder lemmas -/

theorem decode_foldl_filterMap (parse : String → Option StreamJsonRecord)
    (lines : List String) (st : StreamParseResult) :
    lines.foldl
      (fun st line =>
        match parse line with
        | some json => processRecord st json
        | none => st) st
      = (lines.filterMap parse).foldl processRecord st := by
  induction lines generalizing st with
  | nil => rfl
  | cons l ls ih =>
    cases h : parse l with
    | none => simp [List.filterMap_cons, h, ih]
    | some j => simp [List.filterMap_cons, h, ih]

theorem processRecord_result_fields (st : StreamParseResult) (j : StreamJsonRecord) :
    (processRecord st j).result
      = (if j.type = some "result" then jsOr j.result "" else st.result) ∧
    (processRecord st j).sessionId
      = (if j.type = some "result" then j.session_id else st.sessionId) := by
  unfold processRecord
  rcases j with ⟨tur, ty, res, sid⟩
  cases tur with
  | none =>
    dsimp only
    constructor <;> split <;> rfl
  | some t =>
    dsimp only
    by_cases hfp : jsTruthy t.filePath <;>
      simp only [hfp, if_true, if_false, Bool.false_eq_true] <;>
      constructor <;> split <;> rfl

theorem foldl_processRecord_no_result (rs : List StreamJsonRecord)
    (st : StreamParseResult) (h : ∀ r ∈ rs, r.type ≠ some "result") :
    (rs.foldl processRecord st).result = st.result ∧
    (rs.foldl processRecord st).sessionId = st.sessionId := by
  induction rs generalizing st with
  | nil => exact ⟨rfl, rfl⟩
  | cons r rs ih =>
    have hr : r.type ≠ some "result" := h r (List.mem_cons_self r rs)
    have hfields := processRecord_result_fields st r
    simp only [if_neg hr] at hfields
    have hrest := ih (processRecord st r) (fun x hx => h x (List.mem_cons_of_mem r hx))
    exact ⟨hrest.1.trans hfields.1, hrest.2.trans hfields.2⟩

/-- Claim C2 (confirmed): when the decoded lines of a raw output contain a
`"result"`-typed record `r` preceded by at least one earlier
`"result"`-typed record and followed by none, `parseStreamJsonOutput`
returns `r`'s text payload and session id — the last `"result"` line
overwrites everything captured before it. -/
theorem parseStreamJsonOutput_last_result_wins
    (parse : String → Option StreamJsonRecord) (rawOutput : String)
    (rs₁ rs₂ : List StreamJsonRecord) (r : StreamJsonRecord)
    (hsplit : (jsLines rawOutput).filterMap parse = rs₁ ++ r :: rs₂)
    (hearlier : ∃ r₁ ∈ rs₁, r₁.type = some "result")
    (hr : r.type = some "result")
    (hafter : ∀ r₂ ∈ rs₂, r₂.type ≠ some "result") :
    (parseStreamJsonOutput parse rawOutput).result = jsOr r.result "" ∧
    (parseStreamJsonOutput parse rawOutput).sessionId = r.session_id := by
  unfold parseStreamJsonOutput
  rw [decode_foldl_filterMap, hsplit, List.foldl_append, List.foldl_cons]
  have hfields := processRecord_result_fields (rs₁.foldl processRecord ⟨"", none, []⟩) r
  simp only [if_pos hr] at hfields
  have hrest := foldl_processRecord_no_result rs₂
    (processRecord (rs₁.foldl processRecord ⟨"", none, []⟩) r) hafter
  exact ⟨hrest.1.trans hfields.1, hrest.2.trans hfields.2⟩

/-- Witness for C2: two `"result"` lines; the decoder returns the second
line's text and session id. -/
theorem parseStreamJsonOutput_last_result_wins_witness :
    (parseStreamJsonOutput c2parse "lineA\nlineB").result = "second" ∧
    (parseStreamJsonOutput c2parse "lineA\nlineB").sessionId = some "sessB" := by
  have h := parseStreamJsonOutput_last_result_wins c2parse "lineA\nlineB"
    [⟨none, some "result", some "first", some "sessA"⟩] []
    ⟨none, some "result", some "second", some "sessB"⟩
    (by decide) (by decide) (by decide) (by decide)
  exact ⟨h.1.trans (by decide), h.2.trans (by decide)⟩

/-- Claim C3 (confirmed): inserting a line that fails to parse as JSON among
the lines of a raw output leaves the decoded result — text, session id and
file mutations — unchanged; the malformed line is silently discarded and
contributes nothing. -/
theorem parseStreamJsonOutput_malformed_line_tolerated
    (parse : String → Option StreamJsonRecord)
    (rawOutput rawOutputWithBad bad : String) (ls₁ ls₂ : List String)
    (hsplit : jsRawLines rawOutput = ls₁ ++ ls₂)
    (hsplitBad : jsRawLines rawOutputWithBad = ls₁ ++ bad :: ls₂)
    (hbad : parse bad = none) :
    parseStreamJsonOutput parse rawOutputWithBad
      = parseStreamJsonOutput parse rawOutput := by
  unfold parseStreamJsonOutput
  rw [decode_foldl_filterMap, decode_foldl_filterMap]
  have hlines : (jsLines rawOutputWithBad).filterMap parse
      = (jsLines rawOutput).filterMap parse := by
    unfold jsLines
    rw [hsplit, hsplitBad, List.filter_append, List.filter_append, List.filter_cons]
    by_cases hb : jsTrimStr bad = ""
    · simp [hb]
    · simp only [hb, decide_not, decide_eq_false_iff_not, not_not, ite_not]
      simp [hb, List.filterMap_append, List.filterMap_cons, hbad]
  rw [hlines]

/-- Witness for C3: the literal line `not json` inserted between two valid
protocol lines changes nothing, and the tool-result line's mutation is still
reported. -/
theorem parseStreamJsonOutput_malformed_line_tolerated_witness :
    parseStreamJsonOutput c3parse "lineA\nnot json\nlineB"
      = parseStreamJsonOutput c3parse "lineA\nlineB" ∧
    (parseStreamJsonOutput c3parse "lineA\nnot json\nlineB").modifiedFiles
      = [⟨"create", "/srv/demo/a.ts"⟩] := by
  have h := parseStreamJsonOutput_malformed_line_tolerated c3parse "lineA\nlineB"
    "lineA\nnot json\nlineB" "not json" ["lineA"] ["lineB"]
    (by decide) (by decide) (by decide)
  exact ⟨h, by decide⟩

/-! ## Claim C6 — session continuity -/

theorem doPost_ok (env : SlackEnv) (hpost : ∀ a b th, env.postMessage a b th = Except.ok ())
    (st : BotState) (c t : String) (th : Option String) :
    doPost env st c t th = ({ st with posts := st.posts ++ [(c, t, th)] }, none) := by
  unfold doPost
  rw [hpost]

/-- Symbolic execution of `handleThreadReply` for a reply that passes the
dedup, bot-author and prompt checks, has no attachments, and whose posts
succeed: the acknowledgment and reply are posted, the execution is invoked
with the session's id as resume target, and the session id is overwritten in
place exactly when the execution returned a truthy one. -/
theorem handleThreadReply_ok (env : SlackEnv) (cfg : AppConfig) (bot : Option String)
    (st : BotState) (m : SlackMessage) (c tts : String) (sess : ThreadSession) (t : String)
    (hpost : ∀ a b th, env.postMessage a b th = Except.ok ())
    (hseen : st.processedMessages.contains m.ts = false)
    (hbot : m.user ≠ bot)
    (ht : m.text = some t)
    (htrim : jsTrimStr t ≠ "")
    (hclean : cleanPromptOf t ≠ "")
    (hfiles : m.files = none) :
    handleThreadReply env cfg bot st m c tts sess =
      (let opts := threadExecOptions cfg sess (cleanPromptOf t)
       let result := env.executeClaude opts
       let st1 : BotState :=
         { st with
           processedMessages := setAdd st.processedMessages m.ts
           posts := st.posts ++ [(c, "処理中...", some tts),
             (c, formatResponse result sess.projectPath, some tts)]
           execCalls := st.execCalls ++ [opts] }
       if jsTruthy result.sessionId then
         let sess1 := { sess with sessionId := result.sessionId }
         ({ st1 with threadSessions := mapSet st1.threadSessions (getSessionKey c tts) sess1 },
          sess1, none)
       else (st1, sess, none)) := by
  have hclean2 : (jsTrimStr (stripMentionsStr (jsTrimStr t)) = "") = False := by
    apply eq_false
    intro h
    exact hclean (by unfold cleanPromptOf; exact h)
  have hjt : jsTruthy (some (jsTrimStr t)) = true := by
    simp [jsTruthy, htrim]
  simp only [handleThreadReply, hseen, Bool.false_eq_true, if_false, if_neg hbot, ht,
    Option.map_some', Option.getD_some, hjt, Bool.not_true, hclean2, doPost_ok env hpost,
    hfiles, downloadImages, List.length_nil, Nat.lt_irrefl, threadExecOptions,
    cleanPromptOf, gt_iff_lt, if_true]
  split <;> simp [List.append_assoc]

theorem contains_setAdd_false (s : List String) (x y : String)
    (h : s.contains y = false) (hxy : y ≠ x) : (setAdd s x).contains y = false := by
  unfold setAdd
  split
  · exact h
  · simp only [List.contains_eq_any_beq, List.any_append, Bool.or_eq_false_iff] at h ⊢
    refine ⟨h, ?_⟩
    simp [hxy]

theorem handleThreadReply_ok_fields (env : SlackEnv) (cfg : AppConfig) (bot : Option String)
    (st : BotState) (m : SlackMessage) (c tts : String) (sess : ThreadSession) (t : String)
    (hpost : ∀ a b th, env.postMessage a b th = Except.ok ())
    (hseen : st.processedMessages.contains m.ts = false)
    (hbot : m.user ≠ bot)
    (ht : m.text = some t)
    (htrim : jsTrimStr t ≠ "")
    (hclean : cleanPromptOf t ≠ "")
    (hfiles : m.files = none) :
    (handleThreadReply env cfg bot st m c tts sess).2.2 = none ∧
    (handleThreadReply env cfg bot st m c tts sess).2.1
      = sessionAfterExec env cfg sess (cleanPromptOf t) ∧
    (handleThreadReply env cfg bot st m c tts sess).1.execCalls
      = st.execCalls ++ [threadExecOptions cfg sess (cleanPromptOf t)] ∧
    (handleThreadReply env cfg bot st m c tts sess).1.processedMessages
      = setAdd st.processedMessages m.ts := by
  rw [handleThreadReply_ok env cfg bot st m c tts sess t hpost hseen hbot ht htrim hclean hfiles]
  simp only [sessionAfterExec]
  split <;> simp

/-- Claim C6 (confirmed): for a thread with an existing session processing
two sequential replies `r1` then `r2` in order, `r2`'s execution is invoked
with `resumeSessionId` equal to the session id returned by `r1`'s execution
when it returned a (truthy) one, and equal to the unchanged stored id when
`r1`'s execution returned none — the in-place overwrite after `r1` is what
`r2` resumes from, not the id captured at session creation. -/
theorem thread_session_continuity
    (env : SlackEnv) (cfg : AppConfig) (bot : Option String) (st : BotState)
    (c tts : String) (sess : ThreadSession) (r1 r2 : SlackMessage) (t1 t2 : String)
    (hpost : ∀ a b th, env.postMessage a b th = Except.ok ())
    (h1root : r1.ts ≠ tts) (h2root : r2.ts ≠ tts) (hne : r2.ts ≠ r1.ts)
    (h1seen : st.processedMessages.contains r1.ts = false)
    (h2seen : st.processedMessages.contains r2.ts = false)
    (h1bot : r1.user ≠ bot) (h2bot : r2.user ≠ bot)
    (h1text : r1.text = some t1) (h2text : r2.text = some t2)
    (h1trim : jsTrimStr t1 ≠ "") (h2trim : jsTrimStr t2 ≠ "")
    (h1clean : cleanPromptOf t1 ≠ "") (h2clean : cleanPromptOf t2 ≠ "")
    (h1files : r1.files = none) (h2files : r2.files = none) :
    (processReplies env cfg bot st c tts sess [r1, r2]).1.execCalls
      = st.execCalls ++ [threadExecOptions cfg sess (cleanPromptOf t1),
          threadExecOptions cfg (sessionAfterExec env cfg sess (cleanPromptOf t1))
            (cleanPromptOf t2)] ∧
    (processReplies env cfg bot st c tts sess [r1, r2]).2.1
      = sessionAfterExec env cfg (sessionAfterExec env cfg sess (cleanPromptOf t1))
          (cleanPromptOf t2) ∧
    (threadExecOptions cfg (sessionAfterExec env cfg sess (cleanPromptOf t1))
        (cleanPromptOf t2)).resumeSessionId
      = (if jsTruthy (env.executeClaude (threadExecOptions cfg sess (cleanPromptOf t1))).sessionId
         then (env.executeClaude (threadExecOptions cfg sess (cleanPromptOf t1))).sessionId
         else sess.sessionId) := by
  have h3 : (threadExecOptions cfg (sessionAfterExec env cfg sess (cleanPromptOf t1))
        (cleanPromptOf t2)).resumeSessionId
      = (if jsTruthy (env.executeClaude (threadExecOptions cfg sess (cleanPromptOf t1))).sessionId
         then (env.executeClaude (threadExecOptions cfg sess (cleanPromptOf t1))).sessionId
         else sess.sessionId) := by
    simp only [threadExecOptions, sessionAfterExec]
    split <;> rfl
  have hA := handleThreadReply_ok_fields env cfg bot st r1 c tts sess t1 hpost h1seen h1bot
    h1text h1trim h1clean h1files
  rcases hEq : handleThreadReply env cfg bot st r1 c tts sess with ⟨stA, sessA, eA⟩
  rw [hEq] at hA
  obtain ⟨hA0, hA1, hA2, hA3⟩ := hA
  simp only at hA0 hA1 hA2 hA3
  subst hA0
  have h2seen2 : stA.processedMessages.contains r2.ts = false := by
    rw [hA3]
    exact contains_setAdd_false _ _ _ h2seen hne
  have hB := handleThreadReply_ok_fields env cfg bot stA r2 c tts sessA t2 hpost h2seen2 h2bot
    h2text h2trim h2clean h2files
  simp only [processReplies, List.foldl_cons, List.foldl_nil, replyStep, if_neg h1root,
    if_neg h2root, hEq]
  refine ⟨?_, ?_, h3⟩
  · rw [hB.2.2.1, hA2, hA1]
    simp [List.append_assoc]
  · rw [hB.2.1, hA1]

/-- Witness for C6: with a session created with id `sess-0` and an execution
that returns `sess-1` when resuming `sess-0`, the two recorded executions
resume `sess-0` then `sess-1`. -/
theorem thread_session_continuity_witness :
    (processReplies env6 cfg6 none (mkInitialState "50.0") "C1" "50.0" sess6 [r6a, r6b]).1.execCalls
      = [⟨"first reply", "/srv/demo", none, some "sess-0", none⟩,
         ⟨"second reply", "/srv/demo", none, some "sess-1", none⟩] := by
  have h := thread_session_continuity env6 cfg6 none (mkInitialState "50.0") "C1" "50.0" sess6
    r6a r6b "first reply" "second reply" (fun _ _ _ => rfl) (by decide) (by decide) (by decide)
    (by decide) (by decide) (by decide) (by decide) (by decide) (by decide) (by decide)
    (by decide) (by decide) (by decide) (by decide) (by decide)
  exact h.1.trans (by decide)

/-! ## Claim C5 — fetch-error isolation -/

/-- Claim C5 (counterexample): with channels `A` and `B` configured and the
history fetch of `A` throwing, the tick attempts no fetch for `B` at all —
the error is caught and logged only at the whole-tick level (`poll`'s single
`try`/`catch` wraps the channel loop), so a channel fetch error does abort
the tick for the remaining sources, contradicting the claim. -/
theorem poll_channel_fetch_error_aborts_tick_counterexample :
    (poll env5 cfg5 none flId (mkInitialState "100")).historyFetches = [("A", "100")] ∧
    (poll env5 cfg5 none flId (mkInitialState "100")).errorLogs = ["ポーリングエラー: boom"] := by
  decide

/-- Claim C5 (amended): a thread-reply fetch error is caught and logged by
the per-thread `catch` and the tick continues — the remaining threads and
the remaining channels are still polled, and neither the failed thread's
watermark nor the channel watermark is advanced. (A channel-history fetch
error, by contrast, is only caught by the tick-level `catch`: it is logged
and leaves the shared watermark unadvanced, but aborts the remainder of the
tick — see the counterexample.) Here: thread `11.1`'s fetch throws `e`, yet
thread `22.2` and channel `C2` are still fetched; `C2`'s fetch throws `e2`,
and the final state shows both errors logged and all watermarks untouched. -/
theorem fetch_error_isolation_amended
    (env : SlackEnv) (cfg : AppConfig) (fl : FloatModel)
    (s1 s2 : ThreadSession) (d1 d2 : String) (e e2 : String)
    (hch : cfg.channels = some [("C1", d1), ("C2", d2)])
    (hh1 : env.getChannelHistory "C1" "100" = Except.ok [])
    (ht1 : env.getThreadReplies "C1" "11.1" "11.1" = Except.error e)
    (ht2 : env.getThreadReplies "C1" "22.2" "22.2" = Except.ok [])
    (hh2 : env.getChannelHistory "C2" "100" = Except.error e2) :
    poll env cfg none fl (st5 s1 s2) =
      { st5 s1 s2 with
          historyFetches := [("C1", "100"), ("C2", "100")]
          replyFetches := [("C1", "11.1", "11.1"), ("C1", "22.2", "22.2")]
          errorLogs := ["スレッドポーリングエラー: " ++ e, "ポーリングエラー: " ++ e2] } := by
  have hsw1 : jsStartsWith "C1:11.1" ("C1" ++ ":") = true := by decide
  have hsw2 : jsStartsWith "C1:22.2" ("C1" ++ ":") = true := by decide
  have hsp1 : ((((jsSplitChar ':' ("C1:11.1" : String).data).map
      (fun cs => String.mk cs)).get? 1).getD "") = "11.1" := by decide
  have hsp2 : ((((jsSplitChar ':' ("C1:22.2" : String).data).map
      (fun cs => String.mk cs)).get? 1).getD "") = "22.2" := by decide
  simp only [poll, hch, Option.getD_some, List.map_cons, List.map_nil, List.foldl_cons,
    List.foldl_nil, tickStep, pollChannel, st5, mkInitialState, List.nil_append, hh1,
    List.length_nil, Nat.lt_irrefl, if_false, pollActiveThreads, activeThreadsOf,
    List.filter_cons, List.filter_nil, hsw1, hsw2, if_true, hsp1, hsp2, pollThreadStep,
    getSessionKey, mapGet, List.find?_nil, Option.map_none', Option.getD_none, ht1, ht2,
    processReplies, replyStep, hh2, List.cons_append, List.append_nil]

/-- Witness for the amended C5 theorem at a concrete environment. -/
theorem fetch_error_isolation_amended_witness :
    poll env5b cfg5b none flId (st5 sess5 sess5) =
      { st5 sess5 sess5 with
          historyFetches := [("C1", "100"), ("C2", "100")]
          replyFetches := [("C1", "11.1", "11.1"), ("C1", "22.2", "22.2")]
          errorLogs := ["スレッドポーリングエラー: boom1", "ポーリングエラー: boom2"] } := by
  have h := fetch_error_isolation_amended env5b cfg5b flId sess5 sess5 "demo" "demo"
    "boom1" "boom2" rfl (by simp [env5b]) (by simp [env5b]) (by simp [env5b]) (by simp [env5b])
  exact h.trans (by decide)

/-! ## Claim C10 — shared channel watermark

Field-preservation lemmas: no handler or thread pass ever touches the shared
channel watermark `lastTimestamp` or the channel fetch trace. -/

theorem doPost_fields (env : SlackEnv) (st : BotState) (c t : String) (th : Option String) :
    (doPost env st c t th).1.lastTimestamp = st.lastTimestamp ∧
    (doPost env st c t th).1.historyFetches = st.historyFetches := by
  unfold doPost
  split <;> exact ⟨rfl, rfl⟩

theorem downloadImages_foldl_fields (env : SlackEnv) (fs : List SlackFile) :
    ∀ acc : BotState × List String,
      (fs.foldl (downloadImagesStep env) acc).1.lastTimestamp = acc.1.lastTimestamp ∧
      (fs.foldl (downloadImagesStep env) acc).1.historyFetches = acc.1.historyFetches := by
  induction fs with
  | nil => intro acc; exact ⟨rfl, rfl⟩
  | cons f fs ih =>
    intro acc
    have hstep : (downloadImagesStep env acc f).1.lastTimestamp = acc.1.lastTimestamp ∧
        (downloadImagesStep env acc f).1.historyFetches = acc.1.historyFetches := by
      unfold downloadImagesStep
      split
      · split <;> exact ⟨rfl, rfl⟩
      · exact ⟨rfl, rfl⟩
    have hrest := ih (downloadImagesStep env acc f)
    rw [List.foldl_cons]
    exact ⟨hrest.1.trans hstep.1, hrest.2.trans hstep.2⟩

theorem downloadImages_fields (env : SlackEnv) (st : BotState) (fs : Option (List SlackFile)) :
    (downloadImages env st fs).1.lastTimestamp = st.lastTimestamp ∧
    (downloadImages env st fs).1.historyFetches = st.historyFetches := by
  unfold downloadImages
  cases fs with
  | none => exact ⟨rfl, rfl⟩
  | some l => exact downloadImages_foldl_fields env l (st, [])

theorem handleMessage_ok (env : SlackEnv) (cfg : AppConfig) (bot : Option String)
    (c : String) (hpost : ∀ a b th, env.postMessage a b th = Except.ok ())
    (st : BotState) (m : SlackMessage) :
    (handleMessage env cfg bot st m c).2 = none ∧
    (handleMessage env cfg bot st m c).1.lastTimestamp = st.lastTimestamp ∧
    (handleMessage env cfg bot st m c).1.historyFetches = st.historyFetches := by
  unfold handleMessage
  simp only [doPost_ok env hpost]
  split
  · exact ⟨rfl, rfl, rfl⟩
  · split
    · exact ⟨rfl, rfl, rfl⟩
    · split
      · exact ⟨rfl, rfl, rfl⟩
      · split
        · exact ⟨rfl, rfl, rfl⟩
        · refine ⟨rfl, ?_, ?_⟩ <;>
            simp [(downloadImages_fields env _ m.files).1,
              (downloadImages_fields env _ m.files).2]

theorem downloadImages_lastTimestamp (env : SlackEnv) (st : BotState)
    (fs : Option (List SlackFile)) :
    (downloadImages env st fs).1.lastTimestamp = st.lastTimestamp :=
  (downloadImages_fields env st fs).1

theorem downloadImages_historyFetches (env : SlackEnv) (st : BotState)
    (fs : Option (List SlackFile)) :
    (downloadImages env st fs).1.historyFetches = st.historyFetches :=
  (downloadImages_fields env st fs).2

theorem handleThreadReply_fields (env : SlackEnv) (cfg : AppConfig) (bot : Option String)
    (hpost : ∀ a b th, env.postMessage a b th = Except.ok ())
    (st : BotState) (m : SlackMessage) (c tts : String) (sess : ThreadSession) :
    (handleThreadReply env cfg bot st m c tts sess).1.lastTimestamp = st.lastTimestamp ∧
    (handleThreadReply env cfg bot st m c tts sess).1.historyFetches = st.historyFetches := by
  unfold handleThreadReply
  simp only [doPost_ok env hpost]
  repeat' split
  all_goals simp [downloadImages_lastTimestamp, downloadImages_historyFetches]

theorem processReplies_fields (env : SlackEnv) (cfg : AppConfig) (bot : Option String)
    (hpost : ∀ a b th, env.postMessage a b th = Except.ok ())
    (c tts : String) (replies : List SlackMessage) :
    ∀ acc : BotState × ThreadSession × Option String,
      (replies.foldl (replyStep env cfg bot c tts) acc).1.lastTimestamp = acc.1.lastTimestamp ∧
      (replies.foldl (replyStep env cfg bot c tts) acc).1.historyFetches = acc.1.historyFetches := by
  induction replies with
  | nil => intro acc; exact ⟨rfl, rfl⟩
  | cons r rs ih =>
    intro acc
    have hstep : (replyStep env cfg bot c tts acc r).1.lastTimestamp = acc.1.lastTimestamp ∧
        (replyStep env cfg bot c tts acc r).1.historyFetches = acc.1.historyFetches := by
      unfold replyStep
      rcases acc with ⟨stA, sessA, eA⟩
      cases eA with
      | some e => exact ⟨rfl, rfl⟩
      | none =>
        dsimp only
        split
        · exact ⟨rfl, rfl⟩
        · exact handleThreadReply_fields env cfg bot hpost stA r c tts sessA
    have hrest := ih (replyStep env cfg bot c tts acc r)
    rw [List.foldl_cons]
    exact ⟨hrest.1.trans hstep.1, hrest.2.trans hstep.2⟩

theorem processReplies_fields2 (env : SlackEnv) (cfg : AppConfig) (bot : Option String)
    (hpost : ∀ a b th, env.postMessage a b th = Except.ok ())
    (st : BotState) (c tts : String) (sess : ThreadSession) (replies : List SlackMessage) :
    (processReplies env cfg bot st c tts sess replies).1.lastTimestamp = st.lastTimestamp ∧
    (processReplies env cfg bot st c tts sess replies).1.historyFetches = st.historyFetches :=
  processReplies_fields env cfg bot hpost c tts replies (st, sess, none)

theorem pollThreadStep_fields (env : SlackEnv) (cfg : AppConfig) (bot : Option String)
    (fl : FloatModel) (c : String)
    (hpost : ∀ a b th, env.postMessage a b th = Except.ok ())
    (st : BotState) (tt : String × ThreadSession) :
    (pollThreadStep env cfg bot fl c st tt).lastTimestamp = st.lastTimestamp ∧
    (pollThreadStep env cfg bot fl c st tt).historyFetches = st.historyFetches := by
  unfold pollThreadStep
  dsimp only
  split
  · exact ⟨rfl, rfl⟩
  · next replies heq =>
    split
    · next stZ sessZ e heq2 =>
      have h1 := (processReplies_fields2 env cfg bot hpost _ _ _ _ _).1.symm.trans
        (congrArg (fun p => p.1.lastTimestamp) heq2)
      have h2 := (processReplies_fields2 env cfg bot hpost _ _ _ _ _).2.symm.trans
        (congrArg (fun p => p.1.historyFetches) heq2)
      constructor
      · show stZ.lastTimestamp = st.lastTimestamp
        rw [← h1]
        split <;> rfl
      · show stZ.historyFetches = st.historyFetches
        rw [← h2]
        split <;> rfl
    · next stZ sessZ heq2 =>
      have h1 := (processReplies_fields2 env cfg bot hpost _ _ _ _ _).1.symm.trans
        (congrArg (fun p => p.1.lastTimestamp) heq2)
      have h2 := (processReplies_fields2 env cfg bot hpost _ _ _ _ _).2.symm.trans
        (congrArg (fun p => p.1.historyFetches) heq2)
      constructor
      · show stZ.lastTimestamp = st.lastTimestamp
        rw [← h1]
        split <;> rfl
      · show stZ.historyFetches = st.historyFetches
        rw [← h2]
        split <;> rfl

theorem pollActiveThreads_fields (env : SlackEnv) (cfg : AppConfig) (bot : Option String)
    (fl : FloatModel) (c : String)
    (hpost : ∀ a b th, env.postMessage a b th = Except.ok ())
    (threads : List (String × ThreadSession)) :
    ∀ st : BotState,
      (threads.foldl (pollThreadStep env cfg bot fl c) st).lastTimestamp = st.lastTimestamp ∧
      (threads.foldl (pollThreadStep env cfg bot fl c) st).historyFetches = st.historyFetches := by
  induction threads with
  | nil => intro st; exact ⟨rfl, rfl⟩
  | cons t ts ih =>
    intro st
    have hstep := pollThreadStep_fields env cfg bot fl c hpost st t
    have hrest := ih (pollThreadStep env cfg bot fl c st t)
    rw [List.foldl_cons]
    exact ⟨hrest.1.trans hstep.1, hrest.2.trans hstep.2⟩

theorem routeMessages_ok (env : SlackEnv) (cfg : AppConfig) (bot : Option String)
    (c : String) (hpost : ∀ a b th, env.postMessage a b th = Except.ok ())
    (msgs : List SlackMessage) :
    ∀ st : BotState,
      (msgs.foldl (routeMessagesStep env cfg bot c) (st, none)).2 = none ∧
      (msgs.foldl (routeMessagesStep env cfg bot c) (st, none)).1.lastTimestamp
        = st.lastTimestamp ∧
      (msgs.foldl (routeMessagesStep env cfg bot c) (st, none)).1.historyFetches
        = st.historyFetches := by
  induction msgs with
  | nil => intro st; exact ⟨rfl, rfl, rfl⟩
  | cons m ms ih =>
    intro st
    have hm := handleMessage_ok env cfg bot c hpost st m
    have hAeq : handleMessage env cfg bot st m c
        = ((handleMessage env cfg bot st m c).1, none) := by
      rw [← hm.1]
    rw [List.foldl_cons]
    simp only [routeMessagesStep]
    rw [hAeq]
    have hrest := ih (handleMessage env cfg bot st m c).1
    exact ⟨hrest.1, hrest.2.1.trans hm.2.1, hrest.2.2.trans hm.2.2⟩

theorem pollActiveThreads_fields2 (env : SlackEnv) (cfg : AppConfig) (bot : Option String)
    (fl : FloatModel) (c : String)
    (hpost : ∀ a b th, env.postMessage a b th = Except.ok ()) (st : BotState) :
    (pollActiveThreads env cfg bot fl st c).lastTimestamp = st.lastTimestamp ∧
    (pollActiveThreads env cfg bot fl st c).historyFetches = st.historyFetches := by
  unfold pollActiveThreads
  exact pollActiveThreads_fields env cfg bot fl c hpost (activeThreadsOf st c) st

theorem pollChannel_ok_proj (env : SlackEnv) (cfg : AppConfig) (bot : Option String)
    (fl : FloatModel) (c : String)
    (hpost : ∀ a b th, env.postMessage a b th = Except.ok ())
    (st : BotState) (msgs : List SlackMessage)
    (hfetch : env.getChannelHistory c st.lastTimestamp = Except.ok msgs)
    (hne : msgs ≠ []) :
    (pollChannel env cfg bot fl st c).2 = none ∧
    (pollChannel env cfg bot fl st c).1.lastTimestamp
      = fl.toString (maxList (msgs.map (fun m => fl.parseFloat m.ts))) ∧
    (pollChannel env cfg bot fl st c).1.historyFetches
      = st.historyFetches ++ [(c, st.lastTimestamp)] := by
  unfold pollChannel
  dsimp only
  rw [hfetch]
  dsimp only
  split
  · next stF e heq =>
    have hr := routeMessages_ok env cfg bot c hpost msgs
      { st with historyFetches := st.historyFetches ++ [(c, st.lastTimestamp)] }
    rw [heq] at hr
    exact absurd hr.1 (by simp)
  · next stF heq =>
    have hr := routeMessages_ok env cfg bot c hpost msgs
      { st with historyFetches := st.historyFetches ++ [(c, st.lastTimestamp)] }
    rw [heq] at hr
    simp only at hr
    rw [if_pos (by cases msgs with | nil => exact absurd rfl hne | cons a l => simp)]
    exact ⟨rfl, rfl, hr.2.2⟩

theorem tickStep_hf (env : SlackEnv) (cfg : AppConfig) (bot : Option String)
    (fl : FloatModel) (c : String)
    (hpost : ∀ a b th, env.postMessage a b th = Except.ok ()) (st : BotState) :
    (tickStep env cfg bot fl (st, none) c).1.historyFetches
      = st.historyFetches ++ [(c, st.lastTimestamp)] := by
  unfold tickStep
  dsimp only
  split
  · next stP e heq =>
    have hhf : (pollChannel env cfg bot fl st c).1.historyFetches
        = st.historyFetches ++ [(c, st.lastTimestamp)] := by
      unfold pollChannel
      dsimp only
      split
      · rfl
      · next msgs heq2 =>
        split
        · next stF e2 heq3 =>
          have hr := routeMessages_ok env cfg bot c hpost msgs
            { st with historyFetches := st.historyFetches ++ [(c, st.lastTimestamp)] }
          rw [heq3] at hr
          simp only at hr
          exact hr.2.2
        · next stF heq3 =>
          have hr := routeMessages_ok env cfg bot c hpost msgs
            { st with historyFetches := st.historyFetches ++ [(c, st.lastTimestamp)] }
          rw [heq3] at hr
          simp only at hr
          split <;> exact hr.2.2
    rw [heq] at hhf
    exact hhf
  · next stP heq =>
    have hhf : (pollChannel env cfg bot fl st c).1.historyFetches
        = st.historyFetches ++ [(c, st.lastTimestamp)] := by
      unfold pollChannel
      dsimp only
      split
      · rfl
      · next msgs heq2 =>
        split
        · next stF e2 heq3 =>
          have hr := routeMessages_ok env cfg bot c hpost msgs
            { st with historyFetches := st.historyFetches ++ [(c, st.lastTimestamp)] }
          rw [heq3] at hr
          simp only at hr
          exact hr.2.2
        · next stF heq3 =>
          have hr := routeMessages_ok env cfg bot c hpost msgs
            { st with historyFetches := st.historyFetches ++ [(c, st.lastTimestamp)] }
          rw [heq3] at hr
          simp only at hr
          split <;> exact hr.2.2
    rw [heq] at hhf
    exact ((pollActiveThreads_fields2 env cfg bot fl c hpost stP).2).trans hhf

theorem tickStep_ok_proj (env : SlackEnv) (cfg : AppConfig) (bot : Option String)
    (fl : FloatModel) (c : String)
    (hpost : ∀ a b th, env.postMessage a b th = Except.ok ())
    (st : BotState) (msgs : List SlackMessage)
    (hfetch : env.getChannelHistory c st.lastTimestamp = Except.ok msgs)
    (hne : msgs ≠ []) :
    (tickStep env cfg bot fl (st, none) c).2 = none ∧
    (tickStep env cfg bot fl (st, none) c).1.lastTimestamp
      = fl.toString (maxList (msgs.map (fun m => fl.parseFloat m.ts))) ∧
    (tickStep env cfg bot fl (st, none) c).1.historyFetches
      = st.historyFetches ++ [(c, st.lastTimestamp)] := by
  have hpc := pollChannel_ok_proj env cfg bot fl c hpost st msgs hfetch hne
  unfold tickStep
  dsimp only
  split
  · next stP e heq =>
    rw [heq] at hpc
    exact absurd hpc.1 (by simp)
  · next stP heq =>
    rw [heq] at hpc
    simp only at hpc
    refine ⟨rfl, ?_, ?_⟩
    · exact ((pollActiveThreads_fields2 env cfg bot fl c hpost stP).1).trans hpc.2.1
    · exact ((pollActiveThreads_fields2 env cfg bot fl c hpost stP).2).trans hpc.2.2

theorem foldl_max_bounds (l : List ℚ) :
    ∀ b : ℚ, b ≤ l.foldl max b ∧ ∀ x ∈ l, x ≤ l.foldl max b := by
  induction l with
  | nil =>
    intro b
    exact ⟨le_refl b, by simp⟩
  | cons y ys ih =>
    intro b
    have h := ih (max b y)
    rw [List.foldl_cons]
    constructor
    · exact le_trans (le_max_left b y) h.1
    · intro x hx
      rcases List.mem_cons.mp hx with rfl | hx
      · exact le_trans (le_max_right b x) h.1
      · exact h.2 x hx

theorem le_maxList (l : List ℚ) : ∀ x ∈ l, x ≤ maxList l := by
  cases l with
  | nil => simp
  | cons y ys =>
    intro x hx
    unfold maxList
    rcases List.mem_cons.mp hx with rfl | hx
    · exact (foldl_max_bounds ys x).1
    · exact (foldl_max_bounds ys y).2 x hx

/-- Claim C10 (confirmed): the coordinator keeps one channel-history
watermark (`lastTimestamp`) shared by all configured channels, initialized
to the process start timestamp. In a tick over channels `A` then `B`, `A`'s
fetch uses the shared watermark, and once `A` returned messages, `B`'s fetch
in the same tick already uses the maximum timestamp observed in `A` as its
lower bound (fourth conjunct: that bound dominates every timestamp of `A`'s
batch). Consequently — assuming the platform honours the `oldest` bound and
the `toString`/`parseFloat` round-trip of the maximum is faithful — every
message fetched in `B` has a timestamp at least the maximum already observed
in `A`: a `B` message below that maximum is never fetched, hence never
handled. -/
theorem shared_channel_watermark
    (env : SlackEnv) (cfg : AppConfig) (bot : Option String) (fl : FloatModel)
    (st0 : BotState) (dA dB : String) (msgsA : List SlackMessage) (startTs : String)
    (hch : cfg.channels = some [("A", dA), ("B", dB)])
    (hpost : ∀ a b th, env.postMessage a b th = Except.ok ())
    (hA : env.getChannelHistory "A" st0.lastTimestamp = Except.ok msgsA)
    (hAne : msgsA ≠ [])
    (holdest : ∀ c o msgs m, env.getChannelHistory c o = Except.ok msgs → m ∈ msgs →
      fl.parseFloat o ≤ fl.parseFloat m.ts)
    (hround : fl.parseFloat (fl.toString (maxList (msgsA.map (fun m => fl.parseFloat m.ts))))
      = maxList (msgsA.map (fun m => fl.parseFloat m.ts))) :
    (mkInitialState startTs).lastTimestamp = startTs ∧
    (poll env cfg bot fl st0).historyFetches
      = st0.historyFetches ++ [("A", st0.lastTimestamp),
          ("B", fl.toString (maxList (msgsA.map (fun m => fl.parseFloat m.ts))))] ∧
    (∀ m ∈ msgsA, fl.parseFloat m.ts ≤ maxList (msgsA.map (fun m => fl.parseFloat m.ts))) ∧
    (∀ msgsB m, env.getChannelHistory "B"
        (fl.toString (maxList (msgsA.map (fun m => fl.parseFloat m.ts)))) = Except.ok msgsB →
      m ∈ msgsB → maxList (msgsA.map (fun m => fl.parseFloat m.ts)) ≤ fl.parseFloat m.ts) := by
  refine ⟨rfl, ?_, ?_, ?_⟩
  · have hT' := tickStep_ok_proj env cfg bot fl "A" hpost st0 msgsA hA hAne
    unfold poll
    rw [hch]
    simp only [Option.getD_some, List.map_cons, List.map_nil, List.foldl_cons, List.foldl_nil]
    rcases hT : tickStep env cfg bot fl (st0, none) "A" with ⟨stT, eT⟩
    rw [hT] at hT'
    obtain ⟨hT0, hT1, hT2⟩ := hT'
    simp only at hT0 hT1 hT2
    subst hT0
    have hB' := tickStep_hf env cfg bot fl "B" hpost stT
    rcases hU : tickStep env cfg bot fl (stT, none) "B" with ⟨stU, eU⟩
    rw [hU] at hB'
    simp only at hB'
    cases eU with
    | none =>
      simp only
      rw [hB', hT2, hT1, List.append_assoc]
      rfl
    | some e =>
      simp only
      rw [hB', hT2, hT1, List.append_assoc]
      rfl
  · intro m hm
    exact le_maxList _ _ (List.mem_map_of_mem (fun m => fl.parseFloat m.ts) hm)
  · intro msgsB m hB hm
    have := holdest "B" _ msgsB m hB hm
    rwa [hround] at this

/-- Witness for C10: channel `A` at watermark `100` returns one message with
timestamp `102`; the very same tick fetches channel `B` with lower bound
`102`. -/
theorem shared_channel_watermark_witness :
    (poll env10 cfg10 none fl10 (mkInitialState "100")).historyFetches
      = [("A", "100"), ("B", "102")] := by
  have holdest10 : ∀ c o msgs m, env10.getChannelHistory c o = Except.ok msgs → m ∈ msgs →
      fl10.parseFloat o ≤ fl10.parseFloat m.ts := by
    intro c o msgs m h hm
    by_cases hco : c = "A" ∧ o = "100"
    · have henv : env10.getChannelHistory c o = Except.ok [msg101] := by
        simp [env10, hco]
      rw [henv] at h
      injection h with h
      subst h
      have : m = msg101 := by simpa using hm
      subst this
      rw [hco.2]
      decide
    · have henv : env10.getChannelHistory c o = Except.ok [] := by
        simp only [env10]
        rw [if_neg hco]
      rw [henv] at h
      injection h with h
      subst h
      simp at hm
  have h := shared_channel_watermark env10 cfg10 none fl10 (mkInitialState "100") "demo" "demo"
    [msg101] "100" rfl (fun _ _ _ => rfl) (by simp [env10, mkInitialState])
    (by decide) holdest10 (by simp [fl10, msg101, maxList])
  exact h.2.1.trans (by decide)
